import Mathlib

/-!
Verification of the tender-list scraper (scraper.py) against its design
specification.  The Python source is shallowly embedded: every pure helper
becomes a Lean function over `String` / `List`; the two BeautifulSoup scans
over the "limita p-card" blocks become structural recursions over a list of
card models; the stateful fetch step becomes a function of its inputs that
also reports which side requests were issued.  HTML parsing itself is not
modelled: each extractor receives, as a field of the card model, exactly the
query result the Python code reads from the parsed tree.
-/

namespace Scraper

/-! ## Whitespace model and the text cleaner (scraper.py lines 23-28) -/

/-- The whitespace class used by the Python regex `\s` and by `str.strip`,
restricted to the ASCII range (space, tab, newline, carriage return,
vertical tab, form feed). -/
def isWS (c : Char) : Bool :=
  c == ' ' || c == '\t' || c == '\n' || c == '\r' ||
  c == Char.ofNat 11 || c == Char.ofNat 12

/-- One left-to-right pass of `re.sub(r'\s+', ' ', text)`: every maximal run
of whitespace characters becomes a single space.  The boolean argument
records whether the previous character was whitespace. -/
def collapseWS : Bool → List Char → List Char
  | _, [] => []
  | prevWS, c :: cs =>
    if isWS c then
      if prevWS then collapseWS true cs
      else ' ' :: collapseWS true cs
    else c :: collapseWS false cs

/-- Drop whitespace from the front, as `str.strip` does on the left. -/
def stripStart (l : List Char) : List Char := l.dropWhile isWS

/-- Drop whitespace from the back, as `str.strip` does on the right. -/
def stripEnd (l : List Char) : List Char := (l.reverse.dropWhile isWS).reverse

/-- `str.strip()`: remove whitespace from both ends. -/
def pyStrip (l : List Char) : List Char := stripEnd (stripStart l)

/-- `clean_text` (scraper.py lines 23-28): empty input is returned as is,
otherwise runs of whitespace are collapsed to one space and the ends are
trimmed. -/
def clean_text (s : String) : String :=
  if s = "" then "" else String.mk (pyStrip (collapseWS false s.data))

/-! ## Generic string helpers used by the extractors -/

/-- Substring containment on character lists: the Python `needle in hay`
test on strings. -/
def containsSub (needle : List Char) : List Char → Bool
  | [] => needle.isPrefixOf ([] : List Char)
  | c :: cs => needle.isPrefixOf (c :: cs) || containsSub needle cs

/-- The Python `needle in hay` test on strings. -/
def strContains (hay needle : String) : Bool := containsSub needle.data hay.data

/-- Left-to-right, non-overlapping replacement pass of `str.replace`.
The `Nat` argument counts characters that still belong to an already
matched occurrence and must be skipped. -/
def replaceAllAux (pat rep : List Char) : List Char → Nat → List Char
  | [], _ => []
  | _ :: cs, k + 1 => replaceAllAux pat rep cs k
  | c :: cs, 0 =>
    if !pat.isEmpty && pat.isPrefixOf (c :: cs) then
      rep ++ replaceAllAux pat rep cs (pat.length - 1)
    else c :: replaceAllAux pat rep cs 0

/-- `str.replace(pat, rep)` for a non-empty pattern (the only way the
source calls it): replace every non-overlapping occurrence, left to
right. -/
def pyReplace (s pat rep : String) : String :=
  String.mk (replaceAllAux pat.data rep.data s.data 0)

/-- `str.strip()` on a `String`. -/
def pyStripStr (s : String) : String := String.mk (pyStrip s.data)

/-! ## Field-name constants.  The apostrophe of the French field names is
built from its code point. -/

def apos : String := String.mk [Char.ofNat 39]

/-- The field and label "Lieu d ... execution" (with apostrophe). -/
def lieuKey : String := "Lieu d" ++ apos ++ "exécution"

/-- The field "Lieu d ... execution (complet)". -/
def lieuFullKey : String := lieuKey ++ " (complet)"

def deadlinePhrase : String := "Date limite de remise des plis"

def deadlineKey : String := "Date et heure limite de remise des plis"

def certKey : String := "Type de réponse électronique"

/-! ## Records: ordered field-name/value maps (Python OrderedDict) -/

/-- A tender record: field names to values, in insertion order. -/
abbrev Record := List (String × String)

/-- Dictionary lookup: the value stored at `key`, if any. -/
def getKey {α : Type} : List (String × α) → String → Option α
  | [], _ => none
  | (k, v) :: rest, key => if k == key then some v else getKey rest key

/-- `data[key]` lookup on a record. -/
def getField (r : Record) (key : String) : Option String := getKey r key

/-- The Python `key in data` test. -/
def hasField (r : Record) (key : String) : Bool := (getField r key).isSome

/-- Dictionary assignment `d[k] = v`: overwrite in place if the key exists,
append at the end otherwise (OrderedDict semantics). -/
def setKey {α : Type} (r : List (String × α)) (k : String) (v : α) :
    List (String × α) :=
  if r.any (fun p => p.1 == k) then
    r.map (fun p => if p.1 == k then (p.1, v) else p)
  else r ++ [(k, v)]

/-- Assignment of a key known to be fresh: plain append. -/
def addField (r : Record) (k v : String) : Record := r ++ [(k, v)]

/-! ## Card model

One "limita p-card" block, as seen by the two label/sibling scans of
`extract_tender_from_card` (scraper.py lines 78-133).  Each field holds the
result of the corresponding BeautifulSoup query on the block:

* `text`            : `get_text()` of the block;
* `dateSpanTexts`   : for each nested div styled with vertical-align that
                      has a span styled with display, the `get_text()` of
                      that span, in document order;
* `brPrevSiblings`  : for each `br` element, its previous sibling when that
                      sibling is a text node (`none` when it is absent or
                      not a string);
* `infoBulleText`   : `get_text()` of the `info-bulle` div, if present. -/
structure LimitaCard where
  text : String
  dateSpanTexts : List String
  brPrevSiblings : List (Option String)
  infoBulleText : Option String
deriving DecidableEq

/-- The date/time fragments collected from the block following the deadline
label (scraper.py lines 93-103): cleaned, empties dropped, duplicates
dropped, order kept. -/
def dateParts (spans : List String) : List String :=
  spans.foldl (fun parts s =>
    let t := clean_text s
    if (t != "") && !(parts.contains t) then parts ++ [t] else parts) []

/-- The visible location fragments of the block following the location
label (scraper.py lines 118-123): text nodes preceding `br` elements,
cleaned, empties dropped. -/
def locFragments (sibs : List (Option String)) : List String :=
  sibs.foldr (fun o acc =>
    match o with
    | none => acc
    | some s => let t := clean_text s; if t = "" then acc else t :: acc) []

/-- The scan for the deadline field (scraper.py lines 78-107).  The boolean
mirrors the `found_date` flag: once a label block has been seen, later
label blocks are ignored; a successful extraction assigns the field and
breaks out of the loop. -/
def deadlineLoop (data : Record) (foundDate : Bool) :
    List LimitaCard → Record
  | [] => data
  | card :: rest =>
    if strContains (clean_text card.text) deadlinePhrase && !foundDate then
      match rest with
      | [] => data
      | next :: _ =>
        let parts := dateParts next.dateSpanTexts
        if parts ≠ [] then setKey data deadlineKey (String.intercalate " " parts)
        else deadlineLoop data true rest
    else deadlineLoop data foundDate rest

/-- The body run when a location label block has a following block
(scraper.py lines 116-133): first the full-location field from the
`info-bulle` element when its cleaned text is non-empty, then the visible
location field from the first three fragments, comma-joined. -/
def lieuStep (next : LimitaCard) (data : Record) : Record :=
  let frags := locFragments next.brPrevSiblings
  let data1 :=
    match next.infoBulleText with
    | some ib => if clean_text ib ≠ "" then setKey data lieuFullKey (clean_text ib) else data
    | none => data
  if frags ≠ [] then setKey data1 lieuKey (String.intercalate ", " (frags.take 3))
  else data1

/-- The scan for the location fields (scraper.py lines 109-133).  Unlike the
deadline scan it has no flag and no break: every label block with a
following block runs `lieuStep`, later matches overwriting earlier ones. -/
def lieuLoop (data : Record) : List LimitaCard → Record
  | [] => data
  | card :: rest =>
    if strContains (clean_text card.text) lieuKey then
      match rest with
      | [] => data
      | next :: _ => lieuLoop (lieuStep next data) rest
    else lieuLoop data rest

/-! ## The full per-card extraction pipeline (scraper.py lines 31-140) -/

/-- The inner span of the verticalText element: its text and its optional
`title` attribute. -/
structure TypeSpan where
  text : String
  title : Option String
deriving DecidableEq

/-- The `title p-card` container: whether it has a `strong` child, and its
`get_text()`. -/
structure TitleCard where
  hasStrong : Bool
  text : String
deriving DecidableEq

/-- One tender card, as seen by `extract_tender_from_card`: each field is
the result of the corresponding BeautifulSoup query on the card.
`verticalText` is the optional outer span together with its optional inner
span; `objetDiv` is the text of the `p-objet` div after its `strong` child
has been removed; `certImg` is the optional `certificat` image together
with its optional `title` attribute. -/
structure Card where
  onclick : String
  refSpan : Option String
  verticalText : Option (Option TypeSpan)
  objetDiv : Option String
  titleCard : Option TitleCard
  estimSpan : Option String
  limitaCards : List LimitaCard
  certImg : Option (Option String)
deriving DecidableEq

def BASE_URL : String := "https://achats.adm.co.ma/"

def LIST_URL : String :=
  "https://achats.adm.co.ma/?page=entreprise.EntrepriseAdvancedSearch&AllCons&searchAnnCons"

/-- The characters after the first occurrence of `sep`, if `sep` occurs. -/
def afterFirst (sep : List Char) : List Char → Option (List Char)
  | [] => if sep.isPrefixOf ([] : List Char) then some [] else none
  | c :: cs =>
    if sep.isPrefixOf (c :: cs) then some ((c :: cs).drop sep.length)
    else afterFirst sep cs

/-- `onclick.split(sep)[1].split(quote)[0]` for the href pattern: the text
between the first occurrence of the pattern and the following quote.  When
the pattern with its quote does not occur the Python code raises an
IndexError (that path is reached by no claim); the model returns "". -/
def hrefTarget (onclick : String) : String :=
  match afterFirst ("location.href=\"").data onclick.data with
  | some rest => String.mk (rest.takeWhile (fun c => c ≠ '"'))
  | none => ""

/-- Simplified model of `urllib.parse.urljoin` for the shapes that occur
here: an absolute URL is kept, anything else is resolved against the base
(which ends in a slash). -/
def urljoin (base url : String) : String :=
  if strContains url "://" then url else base ++ url

/-- URL extraction (scraper.py lines 36-39). -/
def addURL (c : Card) (d : Record) : Record :=
  if strContains c.onclick "location.href=" then
    addField d "URL" (urljoin BASE_URL (hrefTarget c.onclick))
  else d

/-- Reference extraction (scraper.py lines 42-44). -/
def addRef (c : Card) (d : Record) : Record :=
  match c.refSpan with
  | some t => addField d "Référence" (clean_text t)
  | none => d

/-- Type and type-description extraction (scraper.py lines 47-52): both are
set when the inner span exists; a missing `title` attribute becomes the
empty string. -/
def addType (c : Card) (d : Record) : Record :=
  match c.verticalText with
  | some (some ts) =>
    addField (addField d "Type" (clean_text ts.text)) "Type (Description)"
      (ts.title.getD "")
  | _ => d

/-- Objet extraction (scraper.py lines 55-60); the strong child is already
removed in the card model. -/
def addObjet (c : Card) (d : Record) : Record :=
  match c.objetDiv with
  | some t => addField d "Objet" (clean_text t)
  | none => d

/-- The Entité value (scraper.py line 68): every occurrence of the label
token and every colon removed, ends stripped. -/
def entiteValue (text : String) : String :=
  pyStripStr (pyReplace (pyReplace text "Entité" "") ":" "")

/-- Entité extraction (scraper.py lines 63-69): requires the container, a
strong child, and the label token somewhere in the cleaned text. -/
def addEntite (c : Card) (d : Record) : Record :=
  match c.titleCard with
  | some tc =>
    if tc.hasStrong && strContains (clean_text tc.text) "Entité" then
      addField d "Entité" (entiteValue (clean_text tc.text))
    else d
  | none => d

/-- Estimation extraction (scraper.py lines 72-76): only when the cleaned
text is non-empty. -/
def addEstim (c : Card) (d : Record) : Record :=
  match c.estimSpan with
  | some t => if clean_text t ≠ "" then addField d "Estimation (en DH)" (clean_text t) else d
  | none => d

/-- Certification extraction (scraper.py lines 136-138): a missing `title`
attribute becomes the empty string. -/
def addCert (c : Card) (d : Record) : Record :=
  match c.certImg with
  | some t => addField d certKey (t.getD "")
  | none => d

/-- The pipeline up to and including Estimation (scraper.py lines 33-76),
before the two label/sibling scans. -/
def preLoops (c : Card) : Record :=
  addEstim c (addEntite c (addObjet c (addType c (addRef c (addURL c [])))))

/-- `extract_tender_from_card` (scraper.py lines 31-140): the fixed pipeline
of extractors, in source order. -/
def extract_tender_from_card (c : Card) : Record :=
  addCert c
    (lieuLoop (deadlineLoop (preLoops c) false c.limitaCards) c.limitaCards)

/-! ## Deduplication (scraper.py lines 179-207) -/

/-- The per-record accept/drop loop of `extract_all_tenders`: a record with
a reference is kept only the first time that reference is seen; a record
without a reference but with a URL is kept unconditionally; anything else
is dropped. -/
def dedupLoop (seen : List String) : List Record → List Record
  | [] => []
  | r :: rest =>
    match getField r "Référence" with
    | some ref =>
      if seen.contains ref then dedupLoop seen rest
      else r :: dedupLoop (ref :: seen) rest
    | none =>
      if hasField r "URL" then r :: dedupLoop seen rest
      else dedupLoop seen rest

/-- `extract_all_tenders`, from the per-card records on: starts with an
empty seen-set. -/
def extract_all_tenders (records : List Record) : List Record :=
  dedupLoop [] records

/-! ## Field-name union and CSV output (scraper.py lines 210-246) -/

/-- The OrderedDict accumulation of `get_all_fieldnames`: all field names,
in first-seen order (record order, then insertion order inside each
record). -/
def firstSeenUnion (rs : List Record) : List String :=
  rs.foldl (fun acc r =>
    (r.map Prod.fst).foldl (fun a k => if a.contains k then a else a ++ [k]) acc) []

/-- `get_all_fieldnames` (scraper.py lines 210-224): "URL" is placed first
unconditionally, then the union minus "URL" in first-seen order. -/
def get_all_fieldnames (rs : List Record) : List String :=
  "URL" :: (firstSeenUnion rs).filter (fun k => k ≠ "URL")

/-- The spec reading of the column list ("columns = FieldNameUnion with URL
first"), for comparison: a re-ordering of the union that moves URL to the
front when the union holds it. -/
def specColumns (rs : List Record) : List String :=
  let u := firstSeenUnion rs
  if u.contains "URL" then "URL" :: u.filter (fun k => k ≠ "URL") else u

/-- One CSV data row (scraper.py line 245): the value of each column, a
missing field rendered as the empty string. -/
def csvRow (fields : List String) (r : Record) : List String :=
  fields.map (fun f => (getField r f).getD "")

/-- `save_to_csv` (scraper.py lines 227-246), modelled as the data it
writes: `none` when the record list is empty (nothing is written),
otherwise the header row and one row per record. -/
def save_to_csv (rs : List Record) :
    Option (List String × List (List String)) :=
  if rs.isEmpty then none
  else some (get_all_fieldnames rs, rs.map (csvRow (get_all_fieldnames rs)))

/-! ## JSON output (scraper.py lines 251-275)

The json library is the out-of-scope serializer; `json.dump` followed by
`json.load` is modelled as the identity on the JSON tree, except that
loading an object rebuilds its key/value list through dictionary
assignment (later duplicate keys overwrite earlier ones), which is the
Python `json.load` behaviour. -/

inductive Json where
  | str : String → Json
  | num : Int → Json
  | arr : List Json → Json
  | obj : List (String × Json) → Json

/-- The JSON value of one record: `dict(tender)` (scraper.py line 260). -/
def recordJson (r : Record) : Json :=
  Json.obj (r.map (fun p => (p.1, Json.str p.2)))

/-- The structured output object built by `save_to_json`
(scraper.py lines 263-270). -/
def save_to_json (rs : List Record) (extractionDate : String) : Json :=
  Json.obj
    [("metadata", Json.obj
        [("total_tenders", Json.num rs.length),
         ("extraction_date", Json.str extractionDate),
         ("source", Json.str LIST_URL)]),
     ("tenders", Json.arr (rs.map recordJson))]

/-- Reading an object back through a Python dict: each pair assigned in
order, later duplicates overwriting. -/
def loadPairs (l : List (String × Json)) : List (String × Json) :=
  l.foldl (fun acc p => setKey acc p.1 p.2) []

/-- A loaded object as a record, when every value is a string. -/
def readPairList : List (String × Json) → Option Record
  | [] => some []
  | (k, v) :: rest =>
    match v with
    | Json.str s =>
      match readPairList rest with
      | some r => some ((k, s) :: r)
      | none => none
    | _ => none

/-- One element of the `tenders` array read back as a record. -/
def readRecord : Json → Option Record
  | Json.obj l => readPairList (loadPairs l)
  | _ => none

def readRecordList : List Json → Option (List Record)
  | [] => some []
  | j :: rest =>
    match readRecord j with
    | some r =>
      match readRecordList rest with
      | some rs => some (r :: rs)
      | none => none
    | none => none

/-- The `tenders` array of the structured output, read back. -/
def readTenders (j : Json) : Option (List Record) :=
  match j with
  | Json.obj l =>
    match getKey l "tenders" with
    | some (Json.arr ts) => readRecordList ts
    | _ => none
  | _ => none

/-- The `metadata.total_tenders` value of the structured output, read
back. -/
def readTotal (j : Json) : Option Int :=
  match j with
  | Json.obj l =>
    match getKey l "metadata" with
    | some (Json.obj m) =>
      match getKey m "total_tenders" with
      | some (Json.num n) => some n
      | _ => none
    | _ => none
  | _ => none

/-! ## The list-page fetch (scraper.py lines 143-176)

The two HTTP calls are out-of-scope transport.  The model receives the body
of the successful initial GET and the result of the hidden-field query for
PRADO_PAGESTATE (`none` when the field is absent, otherwise its value
attribute), and a function giving the body the server returns for a POST
payload.  It reports the body returned, the POST payload issued (if any),
and the warning lines printed. -/

structure PostPayload where
  pageSizeTop : String
  pageSizeBottom : String
  pagestate : String
  postbackTarget : String
deriving DecidableEq

/-- `fetch_list_page`: with a state token, POST the enlargement request and
return its body; without one, return the initial body unchanged and warn. -/
def fetch_list_page (getBody : String) (pagestateInput : Option String)
    (post : PostPayload → String) :
    String × Option PostPayload × List String :=
  match pagestateInput with
  | some ps =>
    let payload : PostPayload :=
      { pageSizeTop := "500", pageSizeBottom := "500", pagestate := ps,
        postbackTarget := "ctl0$CONTENU_PAGE$resultSearch$listePageSizeTop" }
    (post payload, some payload, [])
  | none =>
    (getBody, none, ["Could not find PRADO_PAGESTATE, using initial page"])

/-! ## Normal form of cleaned text -/

/-- Adjacent characters are never both whitespace. -/
def wsRel (a b : Char) : Prop := (isWS a && isWS b) = false

/-! ## Concrete inputs used by witnesses and counterexamples -/

/-- A record list in which no record carries a URL field. -/
def noUrlRecords : List Record := [[("Objet", "x")]]

/-- A two-record list exercising the CSV layout. -/
def csvWitnessRecords : List Record :=
  [[("URL", "u"), ("Objet", "o")], [("Référence", "r")]]

/-- A two-record list exercising the JSON round trip. -/
def jsonWitnessRecords : List Record :=
  [[("URL", "u"), ("Référence", "r1")], [("Objet", "o")]]

/-- A card whose limita blocks hold a deadline label, its sibling with the
two fragments, and a second label/sibling pair with different fragments. -/
def deadlineTwiceCard : Card :=
  { onclick := "", refSpan := none, verticalText := none, objetDiv := none,
    titleCard := none, estimSpan := none,
    limitaCards :=
      [⟨"Date limite de remise des plis :", [], [], none⟩,
       ⟨"", ["31/12/2025", "10:00"], [], none⟩,
       ⟨"Date limite de remise des plis :", [], [], none⟩,
       ⟨"", ["01/01/2030", "23:59"], [], none⟩],
    certImg := none }

/-- A card whose location label block is followed by a sibling with four
line-break fragments and a tooltip holding the full list. -/
def lieuCapCard : Card :=
  { onclick := "", refSpan := none, verticalText := none, objetDiv := none,
    titleCard := none, estimSpan := none,
    limitaCards :=
      [⟨"Lieu d" ++ apos ++ "exécution :", [], [], none⟩,
       ⟨"", [], [some "Rabat", some "Casablanca", some "Fès", some "Agadir"],
        some "Rabat, Casablanca, Fès, Agadir"⟩],
    certImg := none }

/-- A card with two location label blocks, each followed by a
fragment-bearing sibling with a tooltip. -/
def lieuTwiceCard : Card :=
  { onclick := "", refSpan := none, verticalText := none, objetDiv := none,
    titleCard := none, estimSpan := none,
    limitaCards :=
      [⟨"Lieu d" ++ apos ++ "exécution :", [], [], none⟩,
       ⟨"first sibling", [], [some "A1", some "A2"], some "A full"⟩,
       ⟨"Lieu d" ++ apos ++ "exécution :", [], [], none⟩,
       ⟨"second sibling", [], [some "B1", some "B2"], some "B full"⟩],
    certImg := none }

/-- A card on which every extractor finds nothing. -/
def emptyCard : Card :=
  { onclick := "", refSpan := none, verticalText := none, objetDiv := none,
    titleCard := none, estimSpan := none, limitaCards := [], certImg := none }

/-- A card whose certificat image exists but carries no title attribute. -/
def certOnlyCard : Card :=
  { onclick := "", refSpan := none, verticalText := none, objetDiv := none,
    titleCard := none, estimSpan := none, limitaCards := [],
    certImg := some none }

/-- A card whose titled container text starts with the label token and has
an inner colon in the value. -/
def entiteColonCard : Card :=
  { onclick := "", refSpan := none, verticalText := none, objetDiv := none,
    titleCard := some ⟨true, "Entité : A : B"⟩, estimSpan := none,
    limitaCards := [], certImg := none }

/-- A card whose titled container carries the label token. -/
def entiteTokenCard : Card :=
  { onclick := "", refSpan := none, verticalText := none, objetDiv := none,
    titleCard := some ⟨true, "Entité : Ministère"⟩, estimSpan := none,
    limitaCards := [], certImg := none }

/-- A card whose titled container lacks the label token. -/
def entiteNoTokenCard : Card :=
  { onclick := "", refSpan := none, verticalText := none, objetDiv := none,
    titleCard := some ⟨true, "Acheteur : X"⟩, estimSpan := none,
    limitaCards := [], certImg := none }

/-- The reading of claim C8 for the extracted value: drop the leading label
token and the punctuation following it, keep the rest verbatim. -/
def entiteClaimValue (text : String) : String :=
  String.mk ((text.data.drop ("Entité".data.length)).dropWhile
    (fun ch => ch == ' ' || ch == ':'))

/-! # Theorems -/

/-! ### Lemmas for the cleaner -/

theorem wsRel_symm {a b : Char} (h : wsRel a b) : wsRel b a := by
  simpa [wsRel, Bool.and_comm] using h

theorem collapseWS_sp (l : List Char) :
    ∀ (b : Bool) (c : Char), c ∈ collapseWS b l → isWS c = true → c = ' ' := by
  induction l with
  | nil => intro b c hc _; simp [collapseWS] at hc
  | cons a t ih =>
    intro b c hc hws
    cases ha : isWS a with
    | true =>
      cases b with
      | true =>
        simp only [collapseWS, ha, if_true] at hc
        exact ih true c hc hws
      | false =>
        simp [collapseWS, ha] at hc
        rcases hc with h | h
        · exact h
        · exact ih true c h hws
    | false =>
      simp [collapseWS, ha] at hc
      rcases hc with h | h
      · subst h; rw [ha] at hws; exact absurd hws (by simp)
      · exact ih false c h hws

theorem collapseWS_head_true (l : List Char) :
    ∀ c ∈ (collapseWS true l).head?, isWS c = false := by
  induction l with
  | nil => simp [collapseWS]
  | cons a t ih =>
    cases ha : isWS a with
    | true => simpa [collapseWS, ha] using ih
    | false =>
      intro c hc
      simp [collapseWS, ha] at hc
      subst hc; exact ha

theorem collapseWS_chain (l : List Char) :
    ∀ b : Bool, List.Chain' wsRel (collapseWS b l) := by
  induction l with
  | nil => intro b; simp [collapseWS]
  | cons a t ih =>
    intro b
    cases ha : isWS a with
    | true =>
      cases b with
      | true => simpa [collapseWS, ha] using ih true
      | false =>
        simp only [collapseWS, ha]
        show List.Chain' wsRel (' ' :: collapseWS true t)
        rw [List.chain'_cons']
        refine ⟨?_, ih true⟩
        intro y hy
        have hns := collapseWS_head_true t y hy
        simp [wsRel, hns]
    | false =>
      simp only [collapseWS, ha]
      show List.Chain' wsRel (a :: collapseWS false t)
      rw [List.chain'_cons']
      refine ⟨?_, ih false⟩
      intro y _
      simp [wsRel, ha]

theorem collapseWS_id :
    ∀ l : List Char, List.Chain' wsRel l → (∀ c ∈ l, isWS c = true → c = ' ') →
      ((∀ c ∈ l.head?, isWS c = false) → collapseWS true l = l) ∧
        collapseWS false l = l := by
  intro l
  induction l with
  | nil => intro _ _; exact ⟨fun _ => rfl, rfl⟩
  | cons a t ih =>
    intro hch hsp
    obtain ⟨hR, hch'⟩ := List.chain'_cons'.mp hch
    have hsp' : ∀ c ∈ t, isWS c = true → c = ' ' := fun c hc =>
      hsp c (List.mem_cons_of_mem _ hc)
    have iht := ih hch' hsp'
    cases ha : isWS a with
    | true =>
      have ha' : a = ' ' := hsp a (List.mem_cons_self _ _) ha
      have hhead : ∀ c ∈ t.head?, isWS c = false := by
        intro c hc
        have hr := hR c hc
        simp only [wsRel, ha, Bool.true_and] at hr
        exact hr
      constructor
      · intro hcontra
        have := hcontra a (by simp)
        rw [ha] at this
        exact absurd this (by simp)
      · have ht : collapseWS true t = t := iht.1 hhead
        subst ha'
        show ' ' :: collapseWS true t = ' ' :: t
        rw [ht]
    | false =>
      constructor
      · intro _; simp [collapseWS, ha, iht.2]
      · simp [collapseWS, ha, iht.2]

theorem headNotWS_dropWhile (l : List Char) :
    ∀ c ∈ (l.dropWhile isWS).head?, isWS c = false := by
  induction l with
  | nil => simp [List.dropWhile]
  | cons a t ih =>
    cases ha : isWS a with
    | true => simpa [List.dropWhile_cons, ha] using ih
    | false =>
      intro c hc
      simp [List.dropWhile_cons, ha] at hc
      subst hc; exact ha

theorem dropWhile_eq_self_of_head (l : List Char)
    (h : ∀ c ∈ l.head?, isWS c = false) : l.dropWhile isWS = l := by
  cases l with
  | nil => rfl
  | cons a t =>
    have := h a (by simp)
    simp [List.dropWhile_cons, this]

theorem pyStrip_chain (m : List Char) (h : List.Chain' wsRel m) :
    List.Chain' wsRel (pyStrip m) := by
  have h1 : List.Chain' wsRel (stripStart m) :=
    h.suffix (List.dropWhile_suffix _)
  have hflip : flip wsRel = wsRel := by
    funext a b
    simp [flip, wsRel, Bool.and_comm]
  have h2 : List.Chain' (flip wsRel) ((stripStart m).reverse.dropWhile isWS) := by
    refine List.Chain'.suffix ?_ (List.dropWhile_suffix _)
    rw [List.chain'_reverse]
    simp only [hflip]
    exact h1
  unfold pyStrip stripEnd
  rw [List.chain'_reverse]
  exact h2

theorem pyStrip_subset (m : List Char) : ∀ c ∈ pyStrip m, c ∈ m := by
  intro c hc
  unfold pyStrip stripEnd stripStart at hc
  have h1 := List.mem_reverse.mp hc
  have h2 := (List.dropWhile_suffix isWS).mem h1
  have h3 := List.mem_reverse.mp h2
  exact (List.dropWhile_suffix isWS).mem h3

theorem pyStrip_head (m : List Char) :
    ∀ c ∈ (pyStrip m).head?, isWS c = false := by
  have hpre : pyStrip m <+: stripStart m := by
    unfold pyStrip stripEnd
    refine List.reverse_suffix.mp ?_
    rw [List.reverse_reverse]
    exact List.dropWhile_suffix _
  intro c hc
  obtain ⟨t, ht⟩ := hpre
  cases hE : pyStrip m with
  | nil => rw [hE] at hc; simp at hc
  | cons x xs =>
    rw [hE] at hc ht
    have hcx : c = x := by
      have := hc
      simp at this
      exact this.symm
    subst hcx
    have hss : List.dropWhile isWS m = c :: (xs ++ t) := by
      show stripStart m = c :: (xs ++ t)
      rw [← ht]
      rfl
    exact headNotWS_dropWhile m c (by rw [hss]; rfl)

theorem pyStrip_last (m : List Char) :
    ∀ c ∈ (pyStrip m).reverse.head?, isWS c = false := by
  unfold pyStrip stripEnd
  rw [List.reverse_reverse]
  exact headNotWS_dropWhile _

theorem pyStrip_eq_self (r : List Char)
    (hh : ∀ c ∈ r.head?, isWS c = false)
    (hl : ∀ c ∈ r.reverse.head?, isWS c = false) : pyStrip r = r := by
  unfold pyStrip stripStart stripEnd
  rw [dropWhile_eq_self_of_head r hh]
  rw [dropWhile_eq_self_of_head r.reverse hl]
  exact List.reverse_reverse r

theorem pyStrip_collapse_fix (m : List Char) :
    pyStrip (collapseWS false (pyStrip (collapseWS false m))) =
      pyStrip (collapseWS false m) := by
  have hch : List.Chain' wsRel (pyStrip (collapseWS false m)) :=
    pyStrip_chain _ (collapseWS_chain m false)
  have hsp : ∀ c ∈ pyStrip (collapseWS false m), isWS c = true → c = ' ' :=
    fun c hc => collapseWS_sp m false c (pyStrip_subset _ c hc)
  have hid : collapseWS false (pyStrip (collapseWS false m)) =
      pyStrip (collapseWS false m) :=
    (collapseWS_id _ hch hsp).2
  rw [hid]
  exact pyStrip_eq_self _ (pyStrip_head _) (pyStrip_last _)

/-! ### Lemmas on record lookup and assignment -/

theorem getKey_append {α : Type} (d e : List (String × α)) (k : String) :
    getKey (d ++ e) k =
      match getKey d k with
      | some v => some v
      | none => getKey e k := by
  induction d with
  | nil => rfl
  | cons p t ih =>
    obtain ⟨k0, v0⟩ := p
    by_cases h : (k0 == k) = true
    · simp [getKey, h]
    · simp only [Bool.not_eq_true] at h
      simp [getKey, h, ih]

theorem getKey_eq_none_of_any_false {α : Type} (r : List (String × α)) (k : String)
    (h : r.any (fun p => p.1 == k) = false) : getKey r k = none := by
  induction r with
  | nil => rfl
  | cons p t ih =>
    obtain ⟨k0, v0⟩ := p
    simp only [List.any_cons, Bool.or_eq_false_iff] at h
    simp [getKey, h.1, ih h.2]

theorem getKey_map_set_self {α : Type} (r : List (String × α)) (k : String) (v : α)
    (hany : r.any (fun p => p.1 == k) = true) :
    getKey (r.map (fun p => if p.1 == k then (p.1, v) else p)) k = some v := by
  induction r with
  | nil => simp at hany
  | cons p t ih =>
    obtain ⟨k0, v0⟩ := p
    simp only [List.map_cons]
    by_cases h : (k0 == k) = true
    · rw [if_pos h]
      simp [getKey, h]
    · rw [if_neg h]
      have h' : (k0 == k) = false := by simpa using h
      simp only [List.any_cons, h', Bool.false_or] at hany
      simpa [getKey, h'] using ih hany

theorem getKey_map_set_ne {α : Type} (r : List (String × α)) (k k' : String) (v : α)
    (h : k' ≠ k) :
    getKey (r.map (fun p => if p.1 == k then (p.1, v) else p)) k' = getKey r k' := by
  induction r with
  | nil => rfl
  | cons p t ih =>
    obtain ⟨k0, v0⟩ := p
    simp only [List.map_cons]
    by_cases h0 : (k0 == k) = true
    · rw [if_pos h0]
      have hk0 : k0 = k := by simpa using h0
      have h1 : (k0 == k') = false := by
        subst hk0
        exact beq_eq_false_iff_ne.mpr (fun hk => h hk.symm)
      simpa [getKey, h1] using ih
    · rw [if_neg h0]
      by_cases h1 : (k0 == k') = true
      · simp [getKey, h1]
      · have h1' : (k0 == k') = false := by simpa using h1
        simpa [getKey, h1'] using ih

theorem getKey_setKey_self {α : Type} (r : List (String × α)) (k : String) (v : α) :
    getKey (setKey r k v) k = some v := by
  unfold setKey
  by_cases hany : r.any (fun p => p.1 == k) = true
  · rw [if_pos hany]
    exact getKey_map_set_self r k v hany
  · simp only [Bool.not_eq_true] at hany
    rw [if_neg (by simp [hany])]
    rw [getKey_append, getKey_eq_none_of_any_false r k hany]
    simp [getKey]

theorem getKey_setKey_ne {α : Type} (r : List (String × α)) (k k' : String) (v : α)
    (h : k' ≠ k) : getKey (setKey r k v) k' = getKey r k' := by
  unfold setKey
  by_cases hany : r.any (fun p => p.1 == k) = true
  · rw [if_pos hany]
    exact getKey_map_set_ne r k k' v h
  · simp only [Bool.not_eq_true] at hany
    rw [if_neg (by simp [hany])]
    rw [getKey_append]
    have hk : (k == k') = false := beq_eq_false_iff_ne.mpr (fun hk => h hk.symm)
    cases hg : getKey r k' with
    | some w => rfl
    | none => simp [getKey, hk]

theorem getField_addField_ne (d : Record) (k v k' : String) (h : k' ≠ k) :
    getField (addField d k v) k' = getField d k' := by
  unfold getField addField
  rw [getKey_append]
  have hk : (k == k') = false := beq_eq_false_iff_ne.mpr (fun hk => h hk.symm)
  cases hg : getKey d k' with
  | some w => rfl
  | none => simp [getKey, hk]

theorem getField_addField_self (d : Record) (k v : String)
    (h : getField d k = none) : getField (addField d k v) k = some v := by
  unfold getField addField
  unfold getField at h
  rw [getKey_append, h]
  simp [getKey]

/-! ### Lemmas for the deduplicator, and claim C1 -/

/-- The record carries reference value `v`. -/
def byRef (v : String) (r : Record) : Bool := getField r "Référence" == some v

theorem dedupLoop_sublist (rs : List Record) :
    ∀ seen : List String, (dedupLoop seen rs).Sublist rs := by
  induction rs with
  | nil => intro seen; simp [dedupLoop]
  | cons r rest ih =>
    intro seen
    cases hr : getField r "Référence" with
    | some ref =>
      simp only [dedupLoop, hr]
      by_cases hs : seen.contains ref = true
      · rw [if_pos hs]
        exact (ih seen).cons r
      · rw [if_neg hs]
        exact (ih (ref :: seen)).cons₂ r
    | none =>
      simp only [dedupLoop, hr]
      by_cases hu : hasField r "URL" = true
      · rw [if_pos hu]
        exact (ih seen).cons₂ r
      · rw [if_neg hu]
        exact (ih seen).cons r

theorem dedupLoop_all_key (rs : List Record) :
    ∀ seen : List String,
      (dedupLoop seen rs).all (fun r => hasField r "Référence" || hasField r "URL") = true := by
  induction rs with
  | nil => intro seen; rfl
  | cons r rest ih =>
    intro seen
    cases hr : getField r "Référence" with
    | some ref =>
      simp only [dedupLoop, hr]
      by_cases hs : seen.contains ref = true
      · rw [if_pos hs]; exact ih seen
      · rw [if_neg hs]
        have hk : hasField r "Référence" = true := by simp [hasField, hr]
        simp [List.all_cons, hk, ih (ref :: seen)]
    | none =>
      simp only [dedupLoop, hr]
      by_cases hu : hasField r "URL" = true
      · rw [if_pos hu]
        simp [List.all_cons, hu, ih seen]
      · rw [if_neg hu]; exact ih seen

theorem dedupLoop_filter_noref (rs : List Record) :
    ∀ seen : List String,
      (dedupLoop seen rs).filter (fun r => !(hasField r "Référence") && hasField r "URL") =
        rs.filter (fun r => !(hasField r "Référence") && hasField r "URL") := by
  induction rs with
  | nil => intro seen; rfl
  | cons r rest ih =>
    intro seen
    cases hr : getField r "Référence" with
    | some ref =>
      simp only [dedupLoop, hr]
      have hq : (!(hasField r "Référence") && hasField r "URL") = false := by
        simp [hasField, hr]
      by_cases hs : seen.contains ref = true
      · rw [if_pos hs, List.filter_cons, hq]
        simp [ih seen]
      · rw [if_neg hs]
        rw [List.filter_cons, List.filter_cons, hq]
        simp [ih (ref :: seen)]
    | none =>
      simp only [dedupLoop, hr]
      have hnr : hasField r "Référence" = false := by simp [hasField, hr]
      by_cases hu : hasField r "URL" = true
      · rw [if_pos hu]
        rw [List.filter_cons, List.filter_cons]
        simp [hnr, hu, ih seen]
      · rw [if_neg hu]
        simp only [Bool.not_eq_true] at hu
        rw [List.filter_cons]
        simp [hnr, hu, ih seen]

theorem dedupLoop_filter_byref (rs : List Record) :
    ∀ (seen : List String) (v : String),
      (dedupLoop seen rs).filter (byRef v) =
        if seen.contains v = true then [] else (rs.filter (byRef v)).take 1 := by
  induction rs with
  | nil =>
    intro seen v
    by_cases h : seen.contains v = true <;> simp [dedupLoop, h]
  | cons r rest ih =>
    intro seen v
    cases hr : getField r "Référence" with
    | some ref =>
      simp only [dedupLoop, hr]
      by_cases hv : ref = v
      · subst hv
        have hby : byRef ref r = true := by
          unfold byRef
          rw [hr]
          exact beq_self_eq_true _
        by_cases hs : seen.contains ref = true
        · rw [if_pos hs, ih seen ref, if_pos hs, if_pos hs]
        · rw [if_neg hs, if_neg hs]
          simp [List.filter_cons, hby, ih (ref :: seen) ref, List.contains_cons]
      · have hby : byRef v r = false := by
          unfold byRef
          rw [hr]
          exact beq_eq_false_iff_ne.mpr (fun h => hv (Option.some.inj h))
        by_cases hs : seen.contains ref = true
        · rw [if_pos hs, ih seen v]
          by_cases hsv : seen.contains v = true
          · rw [if_pos hsv, if_pos hsv]
          · rw [if_neg hsv, if_neg hsv]
            simp [List.filter_cons, hby]
        · rw [if_neg hs]
          have hff : ¬(false = true) := by decide
          rw [List.filter_cons, hby, if_neg hff]
          have hc : (ref :: seen).contains v = seen.contains v := by
            have hvr : (v == ref) = false := beq_eq_false_iff_ne.mpr (fun h => hv h.symm)
            rw [List.contains_cons, hvr, Bool.false_or]
          rw [ih (ref :: seen) v, hc]
          by_cases hsv : seen.contains v = true
          · rw [if_pos hsv, if_pos hsv]
          · rw [if_neg hsv, if_neg hsv]
            rw [List.filter_cons, hby, if_neg hff]
    | none =>
      simp only [dedupLoop, hr]
      have hby : byRef v r = false := by
        unfold byRef
        rw [hr]
        rfl
      by_cases hu : hasField r "URL" = true
      · rw [if_pos hu]
        simp [List.filter_cons, hby, ih seen v]
      · rw [if_neg hu]
        simp [List.filter_cons, hby, ih seen v]

/-- Claim C1: the deduplicator keeps the output a subsequence of its input
in document order; for every reference value the output holds exactly the
first input record carrying it (hence at most one); records without a
reference but with a URL all pass through; and every output record has a
reference or a URL. -/
theorem extract_all_tenders_dedup (rs : List Record) :
    (extract_all_tenders rs).Sublist rs ∧
    (∀ v : String, ((extract_all_tenders rs).filter (byRef v)).length ≤ 1) ∧
    (∀ v : String,
      (extract_all_tenders rs).filter (byRef v) = (rs.filter (byRef v)).take 1) ∧
    (extract_all_tenders rs).filter (fun r => !(hasField r "Référence") && hasField r "URL") =
      rs.filter (fun r => !(hasField r "Référence") && hasField r "URL") ∧
    (extract_all_tenders rs).all (fun r => hasField r "Référence" || hasField r "URL") = true := by
  have hfil : ∀ v : String,
      (extract_all_tenders rs).filter (byRef v) = (rs.filter (byRef v)).take 1 := by
    intro v
    unfold extract_all_tenders
    rw [dedupLoop_filter_byref rs [] v]
    simp [List.contains]
  refine ⟨dedupLoop_sublist rs [], ?_, hfil, dedupLoop_filter_noref rs [], dedupLoop_all_key rs []⟩
  intro v
  rw [hfil v]
  calc ((rs.filter (byRef v)).take 1).length ≤ 1 := by
        rw [List.length_take]
        exact min_le_left _ _

/-- Claim C5: the whitespace-cleaning function is idempotent — cleaning an
already cleaned string changes nothing, for every input string. -/
theorem clean_text_idem (s : String) : clean_text (clean_text s) = clean_text s := by
  by_cases hs : s = ""
  · subst hs; rfl
  · unfold clean_text
    rw [if_neg hs]
    by_cases h2 : String.mk (pyStrip (collapseWS false s.data)) = ""
    · rw [if_pos h2, h2]
    · rw [if_neg h2]
      show String.mk (pyStrip (collapseWS false (pyStrip (collapseWS false s.data)))) = _
      rw [pyStrip_collapse_fix]

/-! ### Claim C2: CSV columns and rows -/

theorem getField_eq_none_of_not_contains (r : Record) (f : String)
    (h : (r.map Prod.fst).contains f = false) : getField r f = none := by
  induction r with
  | nil => rfl
  | cons p t ih =>
    obtain ⟨k, v⟩ := p
    simp only [List.map_cons, List.contains_cons, Bool.or_eq_false_iff] at h
    have hk : (k == f) = false := by
      refine beq_eq_false_iff_ne.mpr (fun hkf => ?_)
      rw [beq_eq_false_iff_ne] at h
      exact h.1 hkf.symm
    unfold getField getKey
    rw [hk]
    exact ih h.2

/-- Claim C2 counterexample: for a single record without a URL field, the
emitted column list is not even a permutation of the FieldNameUnion — the
code inserts a URL column the union does not contain, so the columns are
not the union re-ordered. -/
theorem get_all_fieldnames_not_union_reorder :
    get_all_fieldnames noUrlRecords = ["URL", "Objet"] ∧
    firstSeenUnion noUrlRecords = ["Objet"] ∧
    ¬ List.Perm (get_all_fieldnames noUrlRecords) (firstSeenUnion noUrlRecords) := by
  refine ⟨rfl, rfl, ?_⟩
  decide

/-- Claim C2 (amended): for a non-empty ResultSet the tabular output has
columns URL first followed by the FieldNameUnion minus URL in first-seen
order — when URL is in the union this is exactly the union re-ordered with
URL first, otherwise URL is an extra leading column; each record emits one
row of the same width as the column list, and a field absent from a record
looks up to nothing, hence renders as the empty string. -/
theorem save_to_csv_columns (rs : List Record) (h : rs ≠ []) :
    save_to_csv rs =
      some ("URL" :: (firstSeenUnion rs).filter (fun k => k ≠ "URL"),
        rs.map (csvRow (get_all_fieldnames rs))) ∧
    ((firstSeenUnion rs).contains "URL" = true →
      get_all_fieldnames rs = specColumns rs) ∧
    (∀ r ∈ rs, (csvRow (get_all_fieldnames rs) r).length =
      (get_all_fieldnames rs).length) ∧
    (∀ (r : Record) (f : String), (r.map Prod.fst).contains f = false →
      (getField r f).getD "" = "") := by
  refine ⟨?_, ?_, ?_, ?_⟩
  · cases rs with
    | nil => cases h rfl
    | cons a t => rfl
  · intro hu
    unfold specColumns
    rw [if_pos hu]
    rfl
  · intro r _
    unfold csvRow
    exact List.length_map _ _
  · intro r f hf
    rw [getField_eq_none_of_not_contains r f hf]
    rfl

/-- Concrete instantiation of the amended C2 theorem. -/
theorem save_to_csv_columns_witness :
    save_to_csv csvWitnessRecords =
      some (["URL", "Objet", "Référence"], [["u", "o", ""], ["", "", "r"]]) ∧
    get_all_fieldnames csvWitnessRecords = specColumns csvWitnessRecords := by
  have h := save_to_csv_columns csvWitnessRecords (by decide)
  exact ⟨h.1.trans (by decide), h.2.1 (by decide)⟩

/-! ### Claim C9: JSON round trip -/

theorem setKey_of_any_false {α : Type} (r : List (String × α)) (k : String) (v : α)
    (h : r.any (fun p => p.1 == k) = false) : setKey r k v = r ++ [(k, v)] := by
  unfold setKey
  rw [if_neg (by simp [h])]

theorem foldl_setKey_eq_append (l : List (String × Json)) :
    ∀ acc : List (String × Json),
      (l.map Prod.fst).Nodup →
      (∀ k ∈ l.map Prod.fst, acc.any (fun p => p.1 == k) = false) →
      l.foldl (fun a p => setKey a p.1 p.2) acc = acc ++ l := by
  induction l with
  | nil => intro acc _ _; simp
  | cons p t ih =>
    obtain ⟨k, v⟩ := p
    intro acc hnd hacc
    simp only [List.map_cons, List.nodup_cons] at hnd
    simp only [List.foldl_cons]
    rw [setKey_of_any_false acc k v (hacc k (by simp))]
    rw [ih (acc ++ [(k, v)]) hnd.2 ?_]
    · simp
    · intro k' hk'
      have hkk : (k == k') = false := by
        refine beq_eq_false_iff_ne.mpr (fun hkk => ?_)
        rw [hkk] at hnd
        exact hnd.1 hk'
      have hz : acc.any (fun p => p.1 == k') = false :=
        hacc k' (by simp [hk'])
      simp [List.any_append, hz, hkk]

theorem loadPairs_nodup (l : List (String × Json))
    (h : (l.map Prod.fst).Nodup) : loadPairs l = l := by
  unfold loadPairs
  rw [foldl_setKey_eq_append l [] h (fun k _ => rfl)]
  rfl

theorem readPairList_mapJson (r : Record) :
    readPairList (r.map (fun p => (p.1, Json.str p.2))) = some r := by
  induction r with
  | nil => rfl
  | cons p t ih =>
    obtain ⟨k, v⟩ := p
    simp [readPairList, ih]

theorem readRecord_recordJson (r : Record) (h : (r.map Prod.fst).Nodup) :
    readRecord (recordJson r) = some r := by
  show readPairList (loadPairs (r.map (fun p => (p.1, Json.str p.2)))) = some r
  rw [loadPairs_nodup _ (by simpa [List.map_map, Function.comp] using h)]
  exact readPairList_mapJson r

theorem readRecordList_map (rs : List Record)
    (h : ∀ r ∈ rs, (r.map Prod.fst).Nodup) :
    readRecordList (rs.map recordJson) = some rs := by
  induction rs with
  | nil => rfl
  | cons r t ih =>
    simp only [List.map_cons, readRecordList]
    rw [readRecord_recordJson r (h r (by simp)),
      ih (fun x hx => h x (by simp [hx]))]

/-- Claim C9: serializing a ResultSet of well-formed records (no duplicate
field names inside a record) to the structured output and reading it back
yields the same sequence of field-maps, and the metadata total equals the
number of records. -/
theorem save_to_json_round_trip (rs : List Record) (date : String)
    (h : ∀ r ∈ rs, (r.map Prod.fst).Nodup) :
    readTenders (save_to_json rs date) = some rs ∧
    readTotal (save_to_json rs date) = some (rs.length : Int) := by
  constructor
  · unfold save_to_json readTenders
    simp only [getKey]
    simp only [show ("metadata" == "tenders") = false from rfl,
      show ("tenders" == "tenders") = true from rfl]
    simp only [Bool.false_eq_true, if_false, if_true]
    exact readRecordList_map rs h
  · rfl

/-- Concrete instantiation of the C9 round-trip theorem. -/
theorem save_to_json_round_trip_witness :
    readTenders (save_to_json jsonWitnessRecords "2026-10-12") =
      some jsonWitnessRecords ∧
    readTotal (save_to_json jsonWitnessRecords "2026-10-12") = some 2 := by
  have h := save_to_json_round_trip jsonWitnessRecords "2026-10-12" (by decide)
  exact ⟨h.1, h.2.trans (by decide)⟩

/-! ### Claim C6: degraded mode of the fetcher -/

/-- Claim C6: when the initial read succeeds but the page carries no
PRADO_PAGESTATE hidden field, the fetcher returns the body of the original
read response unchanged, issues no enlargement POST, and logs the
degraded-mode warning instead of aborting. -/
theorem fetch_list_page_degraded (body : String) (post : PostPayload → String) :
    fetch_list_page body none post =
      (body, none, ["Could not find PRADO_PAGESTATE, using initial page"]) := rfl

/-! ### Frame lemmas for the extraction pipeline -/

theorem getField_setKey_self (r : Record) (k v : String) :
    getField (setKey r k v) k = some v :=
  getKey_setKey_self r k v

theorem getField_setKey_ne (r : Record) (k k' v : String) (h : k' ≠ k) :
    getField (setKey r k v) k' = getField r k' :=
  getKey_setKey_ne r k k' v h

theorem addURL_frame (c : Card) (d : Record) (k : String) (hk : k ≠ "URL") :
    getField (addURL c d) k = getField d k := by
  simp only [addURL]
  by_cases h : strContains c.onclick "location.href=" = true
  · rw [if_pos h]
    exact getField_addField_ne d _ _ k hk
  · rw [if_neg h]

theorem addRef_frame (c : Card) (d : Record) (k : String) (hk : k ≠ "Référence") :
    getField (addRef c d) k = getField d k := by
  cases hc : c.refSpan with
  | none => simp only [addRef, hc]
  | some t =>
    simp only [addRef, hc]
    exact getField_addField_ne d _ _ k hk

theorem addType_frame (c : Card) (d : Record) (k : String)
    (h1 : k ≠ "Type") (h2 : k ≠ "Type (Description)") :
    getField (addType c d) k = getField d k := by
  cases hc : c.verticalText with
  | none => simp only [addType, hc]
  | some o =>
    cases o with
    | none => simp only [addType, hc]
    | some ts =>
      simp only [addType, hc]
      exact (getField_addField_ne _ _ _ k h2).trans (getField_addField_ne d _ _ k h1)

theorem addObjet_frame (c : Card) (d : Record) (k : String) (hk : k ≠ "Objet") :
    getField (addObjet c d) k = getField d k := by
  cases hc : c.objetDiv with
  | none => simp only [addObjet, hc]
  | some t =>
    simp only [addObjet, hc]
    exact getField_addField_ne d _ _ k hk

theorem addEntite_frame (c : Card) (d : Record) (k : String) (hk : k ≠ "Entité") :
    getField (addEntite c d) k = getField d k := by
  cases hc : c.titleCard with
  | none => simp only [addEntite, hc]
  | some tc =>
    simp only [addEntite, hc]
    by_cases h : (tc.hasStrong && strContains (clean_text tc.text) "Entité") = true
    · rw [if_pos h]
      exact getField_addField_ne d _ _ k hk
    · rw [if_neg h]

theorem addEstim_frame (c : Card) (d : Record) (k : String)
    (hk : k ≠ "Estimation (en DH)") :
    getField (addEstim c d) k = getField d k := by
  cases hc : c.estimSpan with
  | none => simp only [addEstim, hc]
  | some t =>
    simp only [addEstim, hc]
    by_cases h : clean_text t ≠ ""
    · rw [if_pos h]
      exact getField_addField_ne d _ _ k hk
    · rw [if_neg h]

theorem addCert_frame (c : Card) (d : Record) (k : String) (hk : k ≠ certKey) :
    getField (addCert c d) k = getField d k := by
  cases hc : c.certImg with
  | none => simp only [addCert, hc]
  | some t =>
    simp only [addCert, hc]
    exact getField_addField_ne d _ _ k hk

theorem deadlineLoop_frame (k : String) (hk : k ≠ deadlineKey) :
    ∀ (cards : List LimitaCard) (d : Record) (fd : Bool),
      getField (deadlineLoop d fd cards) k = getField d k := by
  intro cards
  induction cards with
  | nil => intro d fd; rfl
  | cons card rest ih =>
    intro d fd
    simp only [deadlineLoop]
    by_cases hc : (strContains (clean_text card.text) deadlinePhrase && !fd) = true
    · rw [if_pos hc]
      cases rest with
      | nil => rfl
      | cons next t =>
        show getField
            (if dateParts next.dateSpanTexts ≠ [] then
              setKey d deadlineKey (String.intercalate " " (dateParts next.dateSpanTexts))
            else deadlineLoop d true (next :: t)) k = getField d k
        by_cases hp : dateParts next.dateSpanTexts ≠ []
        · rw [if_pos hp]
          exact getField_setKey_ne d deadlineKey k _ hk
        · rw [if_neg hp]
          exact ih d true
    · rw [if_neg hc]
      exact ih d fd

theorem lieuStep_frame (next : LimitaCard) (d : Record) (k : String)
    (h1 : k ≠ lieuFullKey) (h2 : k ≠ lieuKey) :
    getField (lieuStep next d) k = getField d k := by
  have hdata1 : getField
      (match next.infoBulleText with
      | some ib => if clean_text ib ≠ "" then setKey d lieuFullKey (clean_text ib) else d
      | none => d) k = getField d k := by
    cases hb : next.infoBulleText with
    | none => rfl
    | some ib =>
      show getField (if clean_text ib ≠ "" then setKey d lieuFullKey (clean_text ib) else d) k =
        getField d k
      by_cases hib : clean_text ib ≠ ""
      · rw [if_pos hib]
        exact getField_setKey_ne d lieuFullKey k _ h1
      · rw [if_neg hib]
  simp only [lieuStep]
  by_cases hf : locFragments next.brPrevSiblings ≠ []
  · rw [if_pos hf]
    rw [getField_setKey_ne _ lieuKey k _ h2]
    exact hdata1
  · rw [if_neg hf]
    exact hdata1

theorem lieuLoop_frame (k : String) (h1 : k ≠ lieuFullKey) (h2 : k ≠ lieuKey) :
    ∀ (cards : List LimitaCard) (d : Record),
      getField (lieuLoop d cards) k = getField d k := by
  intro cards
  induction cards with
  | nil => intro d; rfl
  | cons card rest ih =>
    intro d
    simp only [lieuLoop]
    by_cases hc : strContains (clean_text card.text) lieuKey = true
    · rw [if_pos hc]
      cases rest with
      | nil => rfl
      | cons next t =>
        rw [ih (lieuStep next d)]
        exact lieuStep_frame next d k h1 h2
    · rw [if_neg hc]
      exact ih d

theorem preLoops_none (c : Card) (k : String)
    (h1 : k ≠ "URL") (h2 : k ≠ "Référence") (h3 : k ≠ "Type")
    (h4 : k ≠ "Type (Description)") (h5 : k ≠ "Objet") (h6 : k ≠ "Entité")
    (h7 : k ≠ "Estimation (en DH)") : getField (preLoops c) k = none := by
  unfold preLoops
  rw [addEstim_frame _ _ _ h7, addEntite_frame _ _ _ h6, addObjet_frame _ _ _ h5,
    addType_frame _ _ _ h3 h4, addRef_frame _ _ _ h2, addURL_frame _ _ _ h1]
  rfl

/-! ### Claim C3: deadline extraction, first successful match wins -/

/-- Claim C3: when a record block holds a deadline label block followed by
a sibling block whose date spans carry the two distinct fragments
31/12/2025 and 10:00, the extracted deadline field equals the fragments
joined by one space — whatever follows (in particular any later occurrence
of the same label phrase) never contributes. -/
theorem deadline_first_match (c : Card) (lc sc : LimitaCard)
    (rest : List LimitaCard)
    (hcards : c.limitaCards = lc :: sc :: rest)
    (hlabel : strContains (clean_text lc.text) deadlinePhrase = true)
    (hspans : sc.dateSpanTexts = ["31/12/2025", "10:00"]) :
    getField (extract_tender_from_card c) deadlineKey = some "31/12/2025 10:00" := by
  have hparts : dateParts sc.dateSpanTexts = ["31/12/2025", "10:00"] := by
    rw [hspans]
    rfl
  unfold extract_tender_from_card
  rw [addCert_frame _ _ _ (by decide)]
  rw [lieuLoop_frame deadlineKey (by decide) (by decide)]
  rw [hcards]
  rw [deadlineLoop]
  simp only [Bool.not_false, Bool.and_true]
  rw [hlabel, if_pos rfl]
  show getField
      (if dateParts sc.dateSpanTexts ≠ [] then
        setKey (preLoops c) deadlineKey (String.intercalate " " (dateParts sc.dateSpanTexts))
      else deadlineLoop (preLoops c) true (sc :: rest)) deadlineKey =
    some "31/12/2025 10:00"
  rw [hparts]
  rw [if_pos (by decide)]
  rw [getField_setKey_self]
  rfl

/-- Concrete instantiation of the C3 theorem on a card whose block also
holds a second deadline label with different fragments. -/
theorem deadline_first_match_witness :
    getField (extract_tender_from_card deadlineTwiceCard) deadlineKey =
      some "31/12/2025 10:00" :=
  deadline_first_match deadlineTwiceCard
    ⟨"Date limite de remise des plis :", [], [], none⟩
    ⟨"", ["31/12/2025", "10:00"], [], none⟩
    [⟨"Date limite de remise des plis :", [], [], none⟩,
     ⟨"", ["01/01/2030", "23:59"], [], none⟩]
    rfl (by decide) rfl

/-! ### Claims C4 and C10: location extraction -/

theorem lieuLoop_single (sc : LimitaCard) (d : Record) :
    lieuLoop d [sc] = d := by
  rw [lieuLoop]
  by_cases hsc : strContains (clean_text sc.text) lieuKey = true
  · rw [if_pos hsc]
  · rw [if_neg hsc]
    rw [lieuLoop]

theorem lieuStep_get_lieu (next : LimitaCard) (d : Record)
    (hf : locFragments next.brPrevSiblings ≠ []) :
    getField (lieuStep next d) lieuKey =
      some (String.intercalate ", " ((locFragments next.brPrevSiblings).take 3)) := by
  simp only [lieuStep]
  rw [if_pos hf]
  rw [getField_setKey_self]

theorem lieuStep_get_full (next : LimitaCard) (d : Record) (tb : String)
    (hf : locFragments next.brPrevSiblings ≠ [])
    (hb : next.infoBulleText = some tb) (hne : clean_text tb ≠ "") :
    getField (lieuStep next d) lieuFullKey = some (clean_text tb) := by
  simp only [lieuStep]
  rw [if_pos hf]
  rw [getField_setKey_ne _ _ _ _ (by decide)]
  rw [hb]
  show getField (if clean_text tb ≠ "" then setKey d lieuFullKey (clean_text tb) else d)
    lieuFullKey = some (clean_text tb)
  rw [if_pos hne]
  rw [getField_setKey_self]

/-- Claim C4: with a location label block followed by a sibling carrying
four line-break fragments and a tooltip, the visible location field holds
exactly the first three fragments comma-joined, while the full-location
field holds the whole tooltip text, uncapped — when the tooltip text
carries all four fragments, so does the emitted full-location value. -/
theorem lieu_cap_and_full (c : Card) (lc sc : LimitaCard)
    (f1 f2 f3 f4 tb : String)
    (hcards : c.limitaCards = [lc, sc])
    (hlabel : strContains (clean_text lc.text) lieuKey = true)
    (hfrags : locFragments sc.brPrevSiblings = [f1, f2, f3, f4])
    (hbulle : sc.infoBulleText = some tb)
    (hne : clean_text tb ≠ "")
    (hcont : ∀ f ∈ [f1, f2, f3, f4], strContains (clean_text tb) f = true) :
    getField (extract_tender_from_card c) lieuKey =
      some (String.intercalate ", " [f1, f2, f3]) ∧
    getField (extract_tender_from_card c) lieuFullKey = some (clean_text tb) ∧
    (∀ f ∈ [f1, f2, f3, f4],
      strContains ((getField (extract_tender_from_card c) lieuFullKey).getD "") f
        = true) := by
  have hloop : ∀ d : Record, lieuLoop d [lc, sc] = lieuStep sc d := by
    intro d
    rw [lieuLoop]
    rw [hlabel, if_pos rfl]
    show lieuLoop (lieuStep sc d) [sc] = lieuStep sc d
    exact lieuLoop_single sc _
  have hfne : locFragments sc.brPrevSiblings ≠ [] := by
    rw [hfrags]
    exact List.cons_ne_nil _ _
  have hlieu : getField (extract_tender_from_card c) lieuKey =
      some (String.intercalate ", " [f1, f2, f3]) := by
    unfold extract_tender_from_card
    rw [addCert_frame _ _ _ (by decide), hcards, hloop]
    rw [lieuStep_get_lieu sc _ hfne]
    rw [hfrags]
    rfl
  have hfull : getField (extract_tender_from_card c) lieuFullKey = some (clean_text tb) := by
    unfold extract_tender_from_card
    rw [addCert_frame _ _ _ (by decide), hcards, hloop]
    exact lieuStep_get_full sc _ tb hfne hbulle hne
  refine ⟨hlieu, hfull, ?_⟩
  intro f hf
  rw [hfull]
  exact hcont f hf

/-- Concrete instantiation of the C4 theorem. -/
theorem lieu_cap_and_full_witness :
    getField (extract_tender_from_card lieuCapCard) lieuKey =
      some "Rabat, Casablanca, Fès" ∧
    getField (extract_tender_from_card lieuCapCard) lieuFullKey =
      some "Rabat, Casablanca, Fès, Agadir" := by
  have h := lieu_cap_and_full lieuCapCard
    ⟨"Lieu d" ++ apos ++ "exécution :", [], [], none⟩
    ⟨"", [], [some "Rabat", some "Casablanca", some "Fès", some "Agadir"],
      some "Rabat, Casablanca, Fès, Agadir"⟩
    "Rabat" "Casablanca" "Fès" "Agadir" "Rabat, Casablanca, Fès, Agadir"
    rfl (by decide) (by decide) rfl (by decide) (by decide)
  exact ⟨h.1.trans (by decide), h.2.1.trans (by decide)⟩

/-- Claim C10: the location scan has no first-match cut-off — with two
label blocks each followed by a fragment-bearing sibling with a tooltip,
both emitted location fields carry the values extracted from the last
matching occurrence, overwriting the earlier ones. -/
theorem lieu_last_match_wins (c : Card) (l1 s1 l2 s2 : LimitaCard)
    (b1 b2 : String)
    (hcards : c.limitaCards = [l1, s1, l2, s2])
    (hl1 : strContains (clean_text l1.text) lieuKey = true)
    (hs1 : strContains (clean_text s1.text) lieuKey = false)
    (hl2 : strContains (clean_text l2.text) lieuKey = true)
    (hf1 : locFragments s1.brPrevSiblings ≠ [])
    (hf2 : locFragments s2.brPrevSiblings ≠ [])
    (hb1 : s1.infoBulleText = some b1) (hc1 : clean_text b1 ≠ "")
    (hb2 : s2.infoBulleText = some b2) (hc2 : clean_text b2 ≠ "") :
    getField (extract_tender_from_card c) lieuKey =
      some (String.intercalate ", " ((locFragments s2.brPrevSiblings).take 3)) ∧
    getField (extract_tender_from_card c) lieuFullKey = some (clean_text b2) := by
  have hloop : ∀ d : Record,
      lieuLoop d [l1, s1, l2, s2] = lieuStep s2 (lieuStep s1 d) := by
    intro d
    rw [lieuLoop]
    rw [hl1, if_pos rfl]
    show lieuLoop (lieuStep s1 d) [s1, l2, s2] = lieuStep s2 (lieuStep s1 d)
    rw [lieuLoop]
    rw [hs1, if_neg (by decide)]
    rw [lieuLoop]
    rw [hl2, if_pos rfl]
    show lieuLoop (lieuStep s2 (lieuStep s1 d)) [s2] = lieuStep s2 (lieuStep s1 d)
    exact lieuLoop_single s2 _
  constructor
  · unfold extract_tender_from_card
    rw [addCert_frame _ _ _ (by decide), hcards, hloop]
    exact lieuStep_get_lieu s2 _ hf2
  · unfold extract_tender_from_card
    rw [addCert_frame _ _ _ (by decide), hcards, hloop]
    exact lieuStep_get_full s2 _ b2 hf2 hb2 hc2

/-- Concrete instantiation of the C10 theorem: the first pair contributes
A1, A2 and "A full", the second pair B1, B2 and "B full"; the output holds
the second pair's values. -/
theorem lieu_last_match_wins_witness :
    getField (extract_tender_from_card lieuTwiceCard) lieuKey = some "B1, B2" ∧
    getField (extract_tender_from_card lieuTwiceCard) lieuFullKey =
      some "B full" := by
  have h := lieu_last_match_wins lieuTwiceCard
    ⟨"Lieu d" ++ apos ++ "exécution :", [], [], none⟩
    ⟨"first sibling", [], [some "A1", some "A2"], some "A full"⟩
    ⟨"Lieu d" ++ apos ++ "exécution :", [], [], none⟩
    ⟨"second sibling", [], [some "B1", some "B2"], some "B full"⟩
    "A full" "B full"
    rfl (by decide) (by decide) (by decide) (by decide) (by decide)
    rfl (by decide) rfl (by decide)
  exact ⟨h.1.trans (by decide), h.2.trans (by decide)⟩

/-! ### Claim C7: absent elements give omitted fields; the title-attribute
fields are the exception -/

/-- Claim C7 counterexample: a card whose certificat image exists but has
no title attribute yields a record whose certification field is populated
with the empty string — the field is not omitted and not non-empty. -/
theorem extract_cert_empty_string :
    getField (extract_tender_from_card certOnlyCard)
      "Type de réponse électronique" = some "" := by
  decide

/-- Claim C7 (amended): for every extractor, when its target element is
absent the corresponding field is omitted from the record; however the two
title-attribute fields are populated with the empty string when their
element is present but carries no title attribute. -/
theorem extract_absent_omitted (c : Card) :
    (strContains c.onclick "location.href=" = false →
      getField (extract_tender_from_card c) "URL" = none) ∧
    (c.refSpan = none →
      getField (extract_tender_from_card c) "Référence" = none) ∧
    ((c.verticalText = none ∨ c.verticalText = some none) →
      getField (extract_tender_from_card c) "Type" = none ∧
      getField (extract_tender_from_card c) "Type (Description)" = none) ∧
    (c.objetDiv = none →
      getField (extract_tender_from_card c) "Objet" = none) ∧
    (c.titleCard = none →
      getField (extract_tender_from_card c) "Entité" = none) ∧
    (c.estimSpan = none →
      getField (extract_tender_from_card c) "Estimation (en DH)" = none) ∧
    (c.limitaCards = [] →
      getField (extract_tender_from_card c) deadlineKey = none ∧
      getField (extract_tender_from_card c) lieuKey = none ∧
      getField (extract_tender_from_card c) lieuFullKey = none) ∧
    (c.certImg = none →
      getField (extract_tender_from_card c) certKey = none) ∧
    (∀ t : Option String, c.certImg = some t →
      getField (extract_tender_from_card c) certKey = some (t.getD "")) ∧
    (∀ ts : TypeSpan, c.verticalText = some (some ts) →
      getField (extract_tender_from_card c) "Type (Description)" =
        some (ts.title.getD "")) := by
  have hfree : ∀ k : String, k ≠ certKey → k ≠ lieuFullKey → k ≠ lieuKey →
      k ≠ deadlineKey →
      getField (extract_tender_from_card c) k = getField (preLoops c) k := by
    intro k h1 h2 h3 h4
    unfold extract_tender_from_card
    rw [addCert_frame _ _ _ h1, lieuLoop_frame k h2 h3, deadlineLoop_frame k h4]
  have hcertFree :
      getField (lieuLoop (deadlineLoop (preLoops c) false c.limitaCards)
        c.limitaCards) certKey = none := by
    rw [lieuLoop_frame certKey (by decide) (by decide),
      deadlineLoop_frame certKey (by decide)]
    exact preLoops_none c certKey (by decide) (by decide) (by decide) (by decide)
      (by decide) (by decide) (by decide)
  refine ⟨?_, ?_, ?_, ?_, ?_, ?_, ?_, ?_, ?_, ?_⟩
  · intro h
    rw [hfree _ (by decide) (by decide) (by decide) (by decide)]
    unfold preLoops
    rw [addEstim_frame _ _ _ (by decide), addEntite_frame _ _ _ (by decide),
      addObjet_frame _ _ _ (by decide), addType_frame _ _ _ (by decide) (by decide),
      addRef_frame _ _ _ (by decide)]
    simp only [addURL, h]
    rw [if_neg (by decide)]
    rfl
  · intro h
    rw [hfree _ (by decide) (by decide) (by decide) (by decide)]
    unfold preLoops
    rw [addEstim_frame _ _ _ (by decide), addEntite_frame _ _ _ (by decide),
      addObjet_frame _ _ _ (by decide), addType_frame _ _ _ (by decide) (by decide)]
    simp only [addRef, h]
    rw [addURL_frame _ _ _ (by decide)]
    rfl
  · intro h
    constructor
    · rw [hfree _ (by decide) (by decide) (by decide) (by decide)]
      unfold preLoops
      rw [addEstim_frame _ _ _ (by decide), addEntite_frame _ _ _ (by decide),
        addObjet_frame _ _ _ (by decide)]
      rcases h with h | h <;>
        · simp only [addType, h]
          rw [addRef_frame _ _ _ (by decide), addURL_frame _ _ _ (by decide)]
          rfl
    · rw [hfree _ (by decide) (by decide) (by decide) (by decide)]
      unfold preLoops
      rw [addEstim_frame _ _ _ (by decide), addEntite_frame _ _ _ (by decide),
        addObjet_frame _ _ _ (by decide)]
      rcases h with h | h <;>
        · simp only [addType, h]
          rw [addRef_frame _ _ _ (by decide), addURL_frame _ _ _ (by decide)]
          rfl
  · intro h
    rw [hfree _ (by decide) (by decide) (by decide) (by decide)]
    unfold preLoops
    rw [addEstim_frame _ _ _ (by decide), addEntite_frame _ _ _ (by decide)]
    simp only [addObjet, h]
    rw [addType_frame _ _ _ (by decide) (by decide), addRef_frame _ _ _ (by decide),
      addURL_frame _ _ _ (by decide)]
    rfl
  · intro h
    rw [hfree _ (by decide) (by decide) (by decide) (by decide)]
    unfold preLoops
    rw [addEstim_frame _ _ _ (by decide)]
    simp only [addEntite, h]
    rw [addObjet_frame _ _ _ (by decide), addType_frame _ _ _ (by decide) (by decide),
      addRef_frame _ _ _ (by decide), addURL_frame _ _ _ (by decide)]
    rfl
  · intro h
    rw [hfree _ (by decide) (by decide) (by decide) (by decide)]
    unfold preLoops
    simp only [addEstim, h]
    rw [addEntite_frame _ _ _ (by decide), addObjet_frame _ _ _ (by decide),
      addType_frame _ _ _ (by decide) (by decide), addRef_frame _ _ _ (by decide),
      addURL_frame _ _ _ (by decide)]
    rfl
  · intro h
    unfold extract_tender_from_card
    rw [h]
    refine ⟨?_, ?_, ?_⟩ <;>
      · rw [addCert_frame _ _ _ (by decide)]
        show getField (preLoops c) _ = none
        exact preLoops_none c _ (by decide) (by decide) (by decide) (by decide)
          (by decide) (by decide) (by decide)
  · intro h
    unfold extract_tender_from_card
    simp only [addCert, h]
    exact hcertFree
  · intro t ht
    unfold extract_tender_from_card
    simp only [addCert, ht]
    exact getField_addField_self _ _ _ hcertFree
  · intro ts ht
    rw [hfree _ (by decide) (by decide) (by decide) (by decide)]
    unfold preLoops
    rw [addEstim_frame _ _ _ (by decide), addEntite_frame _ _ _ (by decide),
      addObjet_frame _ _ _ (by decide)]
    simp only [addType, ht]
    apply getField_addField_self
    rw [getField_addField_ne _ _ _ _ (by decide)]
    rw [addRef_frame _ _ _ (by decide), addURL_frame _ _ _ (by decide)]
    rfl

/-- Concrete instantiations of the amended C7 theorem: on a card with
nothing to extract every field is omitted, and on a card with a title-less
certificat image the certification field is the empty string. -/
theorem extract_absent_omitted_witness :
    getField (extract_tender_from_card emptyCard) "URL" = none ∧
    getField (extract_tender_from_card emptyCard) "Référence" = none ∧
    getField (extract_tender_from_card emptyCard) deadlineKey = none ∧
    getField (extract_tender_from_card emptyCard) certKey = none ∧
    getField (extract_tender_from_card certOnlyCard) certKey = some "" := by
  refine ⟨(extract_absent_omitted emptyCard).1 (by decide),
    (extract_absent_omitted emptyCard).2.1 rfl,
    ((extract_absent_omitted emptyCard).2.2.2.2.2.2.1 rfl).1,
    (extract_absent_omitted emptyCard).2.2.2.2.2.2.2.1 rfl,
    (extract_absent_omitted certOnlyCard).2.2.2.2.2.2.2.2.1 none rfl⟩

/-! ### Claim C8: the Entité field -/

/-- Claim C8 counterexample: on a container text that starts with the
label token but has a colon inside the value, the code removes every
occurrence of the token and every colon from the whole text, so the
extracted value differs from the text with only the leading token and its
following punctuation stripped. -/
theorem entite_counterexample :
    getField (extract_tender_from_card entiteColonCard) "Entité" = some "A  B" ∧
    entiteClaimValue (clean_text "Entité : A : B") = "A : B" ∧
    getField (extract_tender_from_card entiteColonCard) "Entité" ≠
      some (entiteClaimValue (clean_text "Entité : A : B")) := by
  refine ⟨by decide, by decide, by decide⟩

/-- Claim C8 (amended): when the titled container exists, has an emphasis
child, and its cleaned text contains the label token anywhere, the
extracted value is the text with every occurrence of the token and every
colon removed and the ends trimmed; when the token is absent the field is
omitted even though the container exists. -/
theorem entite_extraction (c : Card) (tc : TitleCard)
    (h : c.titleCard = some tc) :
    (tc.hasStrong = true → strContains (clean_text tc.text) "Entité" = true →
      getField (extract_tender_from_card c) "Entité" =
        some (entiteValue (clean_text tc.text))) ∧
    (strContains (clean_text tc.text) "Entité" = false →
      getField (extract_tender_from_card c) "Entité" = none) := by
  have hpeel : getField (extract_tender_from_card c) "Entité" =
      getField (addEntite c (addObjet c (addType c (addRef c (addURL c [])))))
        "Entité" := by
    unfold extract_tender_from_card preLoops
    rw [addCert_frame _ _ _ (by decide), lieuLoop_frame _ (by decide) (by decide),
      deadlineLoop_frame _ (by decide), addEstim_frame _ _ _ (by decide)]
  have hbase : getField (addObjet c (addType c (addRef c (addURL c []))))
      "Entité" = none := by
    rw [addObjet_frame _ _ _ (by decide), addType_frame _ _ _ (by decide) (by decide),
      addRef_frame _ _ _ (by decide), addURL_frame _ _ _ (by decide)]
    rfl
  constructor
  · intro hstrong hlbl
    rw [hpeel]
    simp only [addEntite, h]
    rw [hstrong, hlbl, if_pos (show (true && true) = true from rfl)]
    exact getField_addField_self _ _ _ hbase
  · intro hlbl
    rw [hpeel]
    simp only [addEntite, h]
    rw [hlbl, Bool.and_false, if_neg (by decide)]
    exact hbase

/-- Concrete instantiations of the amended C8 theorem. -/
theorem entite_extraction_witness :
    getField (extract_tender_from_card entiteTokenCard) "Entité" =
      some (entiteValue (clean_text "Entité : Ministère")) ∧
    getField (extract_tender_from_card entiteNoTokenCard) "Entité" = none :=
  ⟨(entite_extraction entiteTokenCard ⟨true, "Entité : Ministère"⟩ rfl).1 rfl
      (by decide),
    (entite_extraction entiteNoTokenCard ⟨true, "Acheteur : X"⟩ rfl).2 (by decide)⟩

end Scraper
